import Mathlib

/-!
Verification development for the mappino transformation-and-validation
pipeline.  The Lean definitions below are a shallow embedding of the
Python sources under src/backend/app/services: the shared result model
(validators/base.py), the three concrete validators (xsd.py,
schematron.py, helger.py), the validator registry (registry.py) and the
XSLT transformer service (transformer.py).

Conventions of the embedding:
* Byte strings (xml_bytes, stylesheet bytes) are modelled as Lean
  String values holding the decoded text.
* The lxml / Saxon / zeep library calls are modelled as oracle fields of
  explicit environment structures (pure functions); parsed documents,
  compiled schemas, compiled stylesheets and result trees are opaque
  String handles produced and consumed only by those oracles.
* Wall-clock fields (execution_time_ms) and the raw_response payload are
  side channels irrelevant to the verified properties and are omitted
  from the ValidationResult record.
* Python truthiness of optional string arguments (empty string counts as
  absent) is modelled explicitly wherever the source branches on it.
-/

/-- Severity levels, from validators/base.py (class Severity). -/
inductive Severity where
  | error
  | warning
  | info
deriving DecidableEq, Repr

/-- A single validation finding, from validators/base.py
(dataclass ValidationIssue). -/
structure ValidationIssue where
  severity : Severity
  rule_id : String
  message : String
  location : Option String := none
  source : Option String := none
deriving DecidableEq, Repr

/-- Result of one validator run, from validators/base.py
(dataclass ValidationResult); execution_time_ms and raw_response are
omitted (timing side channel / opaque payload). -/
structure ValidationResult where
  validator_name : String
  validator_type : String
  success : Bool
  issues : List ValidationIssue := []
deriving DecidableEq, Repr

namespace ValidationResult

/-- The errors property of ValidationResult. -/
def errors (r : ValidationResult) : List ValidationIssue :=
  r.issues.filter (fun i => i.severity = Severity.error)

/-- The warnings property of ValidationResult. -/
def warnings (r : ValidationResult) : List ValidationIssue :=
  r.issues.filter (fun i => i.severity = Severity.warning)

end ValidationResult

/-- Error raised by ET.fromstring on malformed XML (lxml XMLSyntaxError):
carries the message and the line number used for the issue location. -/
structure ParseErr where
  msg : String
  line : Nat
deriving DecidableEq, Repr

/-- A parsed XML document handle.  The only attribute the validators
inspect directly is the root element tag (doc.tag); everything else is
consumed opaquely by the oracles. -/
structure XmlDoc where
  tag : String
deriving DecidableEq, Repr

/-- Python str split + strip used for namespace extraction:
tag.split("\x7d")[0].strip("\x7b") when "\x7d" occurs in the tag,
else None; an empty result is falsy and treated as None by both
callers.  From xsd.py (_detect_schema) and schematron.py
(_detect_profile). -/
def pythonNs (tag : String) : Option String :=
  if tag.toList.any (fun c => c = '}') then
    let first := tag.toList.takeWhile (fun c => c ≠ '}')
    let stripped := ((first.dropWhile (fun c => c = '{')).reverse.dropWhile
      (fun c => c = '{')).reverse
    if stripped = [] then none else some (String.mk stripped)
  else none

/-- Location string "line N" attached to XML_SYNTAX issues. -/
def lineLoc (e : ParseErr) : String := "line " ++ toString e.line

namespace XSDValidator

/-- SCHEMA_MAP from xsd.py: namespace to schema file. -/
def SCHEMA_MAP : List (String × String) :=
  [("urn:oasis:names:specification:ubl:schema:xsd:Invoice-2", "UBL-Invoice-2.1.xsd"),
   ("urn:oasis:names:specification:ubl:schema:xsd:CreditNote-2", "UBL-CreditNote-2.1.xsd")]

/-- One entry of an lxml schema error log (used for XSD_INVALID issues). -/
structure XsdErr where
  message : String
  line : Nat
  column : Nat
deriving DecidableEq, Repr

/-- Environment of library oracles for XSDValidator.
loadSchema models _load_schema (path resolution, existence check,
parse + XMLSchema compilation, and the memoising cache: the cache only
ever stores successful loads of the same path, so the composite is a
pure map from the path string to an optional compiled-schema handle).
checkSchema models schema.assertValid together with schema.error_log:
the empty list means the document is valid; lxml raises DocumentInvalid
exactly when the error log is non-empty. -/
structure Env where
  parse : String → Except ParseErr XmlDoc
  loadSchema : String → Option String
  checkSchema : String → XmlDoc → List XsdErr

/-- The validator's name property. -/
def name : String := "XSD Schema"

/-- The validator's validator_type property. -/
def validator_type : String := "xsd"

/-- _detect_schema from xsd.py: namespace of the root tag, looked up in
SCHEMA_MAP, then loaded. -/
def detectSchema (env : Env) (doc : XmlDoc) : Option String :=
  match pythonNs doc.tag with
  | none => none
  | some ns =>
    match SCHEMA_MAP.lookup ns with
    | some schemaFile => env.loadSchema schemaFile
    | none => none

/-- Schema resolution inside XSDValidator.validate: an explicit
schema_path wins when truthy (Python: if schema_path), else namespace
auto-detection when auto_detect is set; a falsy (empty) schema_path is
skipped exactly like an absent one. -/
def getSchema (env : Env) (doc : XmlDoc) (schema_path : Option String)
    (auto_detect : Bool) : Option String :=
  match schema_path with
  | some p =>
    if p = "" then (if auto_detect then detectSchema env doc else none)
    else env.loadSchema p
  | none => if auto_detect then detectSchema env doc else none

/-- The XML_SYNTAX short-circuit result of XSDValidator.validate. -/
def syntaxResult (e : ParseErr) : ValidationResult :=
  { validator_name := name
    validator_type := validator_type
    success := false
    issues := [{ severity := Severity.error
                 rule_id := "XML_SYNTAX"
                 message := "XML parsing error: " ++ e.msg
                 location := some (lineLoc e)
                 source := some name }] }

/-- The lenient no-schema result of XSDValidator.validate. -/
def noSchemaResult : ValidationResult :=
  { validator_name := name
    validator_type := validator_type
    success := true
    issues := [{ severity := Severity.info
                 rule_id := "XSD_NO_SCHEMA"
                 message := "XML is well-formed. No XSD schema found for validation."
                 source := some name }] }

/-- XSDValidator.validate from xsd.py. -/
def validate (env : Env) (xml : String) (schema_path : Option String)
    (auto_detect : Bool) : ValidationResult :=
  match env.parse xml with
  | Except.error e => syntaxResult e
  | Except.ok doc =>
    match getSchema env doc schema_path auto_detect with
    | none => noSchemaResult
    | some schema =>
      match env.checkSchema schema doc with
      | [] =>
        { validator_name := name
          validator_type := validator_type
          success := true
          issues := [] }
      | errs =>
        { validator_name := name
          validator_type := validator_type
          success := false
          issues := errs.map (fun er =>
            { severity := Severity.error
              rule_id := "XSD_INVALID"
              message := er.message
              location := some ("line " ++ toString er.line ++ ", column " ++ toString er.column)
              source := some name }) }

end XSDValidator

namespace SchematronValidator

/-- One svrl:failed-assert or svrl:successful-report element of an SVRL
report: its id, location and flag attributes (absent attributes are
none) and the text of its svrl:text child (none when the child is
missing or its text is None). -/
structure SvrlItem where
  id : Option String := none
  location : Option String := none
  flag : Option String := none
  text : Option String := none
deriving DecidableEq, Repr

/-- An SVRL result tree: the failed assertions and the successful
reports, in document order as visited by _parse_svrl. -/
structure Svrl where
  failedAsserts : List SvrlItem := []
  successfulReports : List SvrlItem := []
deriving DecidableEq, Repr

/-- SCHEMATRON_MAP from schematron.py: profile name to XSLT file. -/
def SCHEMATRON_MAP : List (String × String) :=
  [("peppol-bis3", "peppol-bis3.xslt"),
   ("en16931-ubl", "en16931-ubl.xslt"),
   ("en16931-cii", "en16931-cii.xslt")]

/-- PROFILE_DETECTION from schematron.py: namespace to profile name. -/
def PROFILE_DETECTION : List (String × String) :=
  [("urn:oasis:names:specification:ubl:schema:xsd:Invoice-2", "peppol-bis3"),
   ("urn:oasis:names:specification:ubl:schema:xsd:CreditNote-2", "peppol-bis3"),
   ("urn:un:unece:uncefact:data:standard:CrossIndustryInvoice:100", "en16931-cii")]

/-- Environment of library oracles for SchematronValidator.
loadXslt models _load_xslt (path resolution, existence check, parse +
XSLT compilation, and the success-only memoising cache) as a pure map
from the path string to an optional compiled-XSLT handle.  applyXslt
models running the compiled schematron XSLT on the document: either an
XSLTApplyError message or the SVRL output tree. -/
structure Env where
  parse : String → Except ParseErr XmlDoc
  loadXslt : String → Option String
  applyXslt : String → XmlDoc → Except String Svrl

/-- The validator's name property. -/
def name : String := "Schematron"

/-- The validator's validator_type property. -/
def validator_type : String := "schematron"

/-- _load_profile from schematron.py. -/
def loadProfile (env : Env) (profile : String) : Option String :=
  match SCHEMATRON_MAP.lookup profile with
  | some xsltFile => env.loadXslt xsltFile
  | none => none

/-- _detect_profile from schematron.py. -/
def detectProfile (env : Env) (doc : XmlDoc) : Option String :=
  match pythonNs doc.tag with
  | none => none
  | some ns =>
    match PROFILE_DETECTION.lookup ns with
    | some profile => loadProfile env profile
    | none => none

/-- XSLT resolution inside SchematronValidator.validate: explicit path
if truthy, else named profile if truthy, else namespace auto-detection
(Python: if schematron / elif profile / else detect). -/
def getXslt (env : Env) (doc : XmlDoc) (schematron profile : Option String) :
    Option String :=
  match schematron with
  | some s =>
    if s = "" then
      (match profile with
       | some p => if p = "" then detectProfile env doc else loadProfile env p
       | none => detectProfile env doc)
    else env.loadXslt s
  | none =>
    match profile with
    | some p => if p = "" then detectProfile env doc else loadProfile env p
    | none => detectProfile env doc

/-- Flag-to-severity mapping shared by both loops of _parse_svrl
(the flag has already been lowercased). -/
def flagSeverity (flag : String) : Severity :=
  if flag = "fatal" ∨ flag = "error" then Severity.error
  else if flag = "warning" then Severity.warning
  else Severity.info

/-- Build one issue from an SVRL item, with the per-loop defaults for a
missing flag attribute and a missing or empty text child.  Matches the
loop bodies of _parse_svrl: id defaults to UNKNOWN, location to the
empty string, the text is stripped when present and non-empty.
Python str.lower and str.strip are modelled by String.toLower and
String.trim (the inputs of interest are ASCII). -/
def svrlIssue (defFlag defMsg : String) (item : SvrlItem) : ValidationIssue :=
  { severity := flagSeverity ((item.flag.getD defFlag).toLower)
    rule_id := item.id.getD "UNKNOWN"
    message :=
      (match item.text with
       | some t => if t = "" then defMsg else t.trim
       | none => defMsg)
    location := some (item.location.getD "")
    source := some name }

/-- _parse_svrl from schematron.py: failed assertions (flag defaults to
error, message to "Assertion failed") followed by successful reports
(flag defaults to info, message to "Report"). -/
def parseSvrl (svrl : Svrl) : List ValidationIssue :=
  svrl.failedAsserts.map (svrlIssue "error" "Assertion failed") ++
    svrl.successfulReports.map (svrlIssue "info" "Report")

/-- The XML_SYNTAX short-circuit result of SchematronValidator.validate. -/
def syntaxResult (e : ParseErr) : ValidationResult :=
  { validator_name := name
    validator_type := validator_type
    success := false
    issues := [{ severity := Severity.error
                 rule_id := "XML_SYNTAX"
                 message := "XML parsing error: " ++ e.msg
                 location := some (lineLoc e)
                 source := some name }] }

/-- The lenient no-rules result of SchematronValidator.validate. -/
def noRulesResult : ValidationResult :=
  { validator_name := name
    validator_type := validator_type
    success := true
    issues := [{ severity := Severity.info
                 rule_id := "SCH_NO_RULES"
                 message := "No Schematron rules found for this document type."
                 source := some name }] }

/-- SchematronValidator.validate from schematron.py. -/
def validate (env : Env) (xml : String) (schematron profile : Option String) :
    ValidationResult :=
  match env.parse xml with
  | Except.error e => syntaxResult e
  | Except.ok doc =>
    match getXslt env doc schematron profile with
    | none => noRulesResult
    | some xslt =>
      match env.applyXslt xslt doc with
      | Except.error e =>
        { validator_name := name
          validator_type := validator_type
          success := false
          issues := [{ severity := Severity.error
                       rule_id := "SCH_TRANSFORM_ERROR"
                       message := "Schematron transform error: " ++ e
                       source := some name }] }
      | Except.ok svrl =>
        let issues := parseSvrl svrl
        { validator_name := name
          validator_type := validator_type
          success := !(issues.any (fun i => i.severity = Severity.error))
          issues := issues }

end SchematronValidator

namespace HelgerValidator

/-- The flat fields of one WSDVS result item, as read by _parse_issue. -/
structure HelgerLeaf where
  errorLevel : Option String := none
  mostSevereErrorLevel : Option String := none
  errorID : Option String := none
  errorText : Option String := none
  errorLocation : Option String := none
deriving DecidableEq, Repr

/-- One top-level item of the serialized WSDVS response: its own flat
fields plus the nested Item list (schematron artefacts). -/
structure HelgerItem where
  leaf : HelgerLeaf := {}
  subItems : List HelgerLeaf := []
deriving DecidableEq, Repr

/-- Environment for HelgerValidator: the single remote oracle models
the zeep SOAP call service.validate(XML, VESID, displayLocale) keyed by
the document text and the vesid; a transport or protocol exception is
the error branch, a structured response is the list of Result items.
The client construction, rate-limit sleep and locale are side effects
or constants without result-relevant content. -/
structure Env where
  remote : String → String → Except String (List HelgerItem)

/-- The validator's name property. -/
def name : String := "Helger WSDVS"

/-- The validator's validator_type property. -/
def validator_type : String := "helger"

/-- Default VESID used when the vesid argument is falsy
(VESIDS peppol_invoice). -/
def defaultVesid : String := "eu.peppol.bis3:invoice:2025.5"

/-- _parse_issue from helger.py: errorLevel or mostSevereErrorLevel
(Python or: the first truthy, an empty string is falsy); no level means
no issue; ERROR and WARN map to error and warning, everything else to
info. -/
def parseIssue (item : HelgerLeaf) : Option ValidationIssue :=
  let level :=
    match item.errorLevel with
    | some l => if l = "" then (item.mostSevereErrorLevel.getD "") else l
    | none => item.mostSevereErrorLevel.getD ""
  if level = "" then none
  else
    let location := item.errorLocation.getD ""
    some { severity :=
             if level = "ERROR" then Severity.error
             else if level = "WARN" then Severity.warning
             else Severity.info
           rule_id := item.errorID.getD ""
           message := item.errorText.getD ""
           location := if location = "" then none else some location
           source := some name }

/-- Flatten the response items: a non-empty nested Item list is parsed
element-wise instead of the carrying item (Python: if item.get("Item")). -/
def responseIssues (items : List HelgerItem) : List ValidationIssue :=
  items.flatMap (fun item =>
    match item.subItems with
    | [] => (parseIssue item.leaf).toList
    | subs => subs.filterMap parseIssue)

/-- The connection-failure result of HelgerValidator.validate. -/
def connectionResult (e : String) : ValidationResult :=
  { validator_name := name
    validator_type := validator_type
    success := false
    issues := [{ severity := Severity.error
                 rule_id := "HELGER_CONNECTION"
                 message := "Validation service error: " ++ e
                 source := some name }] }

/-- The vesid actually sent: the argument when truthy, else the default
(Python: if not vesid). -/
def effectiveVesid (vesid : Option String) : String :=
  match vesid with
  | some s => if s = "" then defaultVesid else s
  | none => defaultVesid

/-- HelgerValidator.validate from helger.py: no local well-formedness
check is performed; the decoded document text goes straight to the
remote service after the vesid default is applied. -/
def validate (env : Env) (xml : String) (vesid : Option String) :
    ValidationResult :=
  match env.remote xml (effectiveVesid vesid) with
  | Except.error e => connectionResult e
  | Except.ok items =>
    let issues := responseIssues items
    { validator_name := name
      validator_type := validator_type
      success := (issues.filter (fun i => i.severity = Severity.error)).length = 0
      issues := issues }

end HelgerValidator

/-- Combined results from multiple validators, from registry.py
(dataclass MultiValidationResult). -/
structure MultiValidationResult where
  results : List ValidationResult := []
  overall_success : Bool := true
  total_errors : Nat := 0
  total_warnings : Nat := 0
deriving DecidableEq, Repr

namespace ValidatorRegistry

/-- The registry-visible capability record of one registered validator:
its name, validator_type and is_local properties (base.py /
registry.py). -/
structure RegValidator where
  name : String
  vtype : String
  isLocal : Bool
deriving DecidableEq, Repr

/-- The three validators registered by _register_defaults, keyed and
ordered as in the registry dict (insertion order: helger, xsd,
schematron). -/
def defaultRegistry : List RegValidator :=
  [{ name := HelgerValidator.name, vtype := HelgerValidator.validator_type, isLocal := false },
   { name := XSDValidator.name, vtype := XSDValidator.validator_type, isLocal := true },
   { name := SchematronValidator.name, vtype := SchematronValidator.validator_type,
     isLocal := true }]

/-- Selection resolution at the top of ValidatorRegistry.validate: a
truthy validator_types list keeps, in selection order, the validators
whose type is registered (unknown names are dropped silently); a falsy
selection (None or the empty list) means all registered validators. -/
def resolveValidators (reg : List RegValidator) (selection : Option (List String)) :
    List RegValidator :=
  match selection with
  | some ts =>
    if ts = [] then reg
    else ts.filterMap (fun t => reg.find? (fun v => v.vtype = t))
  | none => reg

/-- Synthetic result for a local validator whose task raised: the name
is not recoverable from the exception, so the registry uses the
placeholders Unknown and error. -/
def syntheticLocal (e : String) : ValidationResult :=
  { validator_name := "Unknown"
    validator_type := "error"
    success := false
    issues := [{ severity := Severity.error
                 rule_id := "VALIDATOR_ERROR"
                 message := e }] }

/-- Synthetic result for an external validator whose call raised. -/
def syntheticExternal (v : RegValidator) (e : String) : ValidationResult :=
  { validator_name := v.name
    validator_type := v.vtype
    success := false
    issues := [{ severity := Severity.error
                 rule_id := "VALIDATOR_ERROR"
                 message := e
                 source := some v.name }] }

/-- The per-validator outcome on the fixed input document: either the
ValidationResult the validator returned or the exception it raised
(asyncio.gather with return_exceptions for the local batch, the
try/except of the sequential external loop). -/
abbrev RunOutcome := RegValidator → Except String ValidationResult

/-- The result list assembled by ValidatorRegistry.validate: local
validators first (gather preserves task order), then external
validators in registration order, every exception converted to its
synthetic result. -/
def collectResults (run : RunOutcome) (validators : List RegValidator) :
    List ValidationResult :=
  (validators.filter (fun v => v.isLocal)).map (fun v =>
      match run v with
      | Except.ok r => r
      | Except.error e => syntheticLocal e) ++
    (validators.filter (fun v => !v.isLocal)).map (fun v =>
      match run v with
      | Except.ok r => r
      | Except.error e => syntheticExternal v e)

/-- ValidatorRegistry.validate from registry.py: resolve the selection,
return the default MultiValidationResult with overall_success False
when nothing resolved, otherwise run everything and aggregate. -/
def validate (reg : List RegValidator) (run : RunOutcome)
    (selection : Option (List String)) : MultiValidationResult :=
  let validators := resolveValidators reg selection
  if validators = [] then
    { results := [], overall_success := false, total_errors := 0, total_warnings := 0 }
  else
    let results := collectResults run validators
    { results := results
      overall_success := results.all (fun r => r.success)
      total_errors := (results.map (fun r => r.errors.length)).sum
      total_warnings := (results.map (fun r => r.warnings.length)).sum }

/-- ValidatorRegistry.validate_local_only from registry.py: restrict
the selection to the registered local validators. -/
def validateLocalOnly (reg : List RegValidator) (run : RunOutcome) :
    MultiValidationResult :=
  validate reg run (some ((reg.filter (fun v => v.isLocal)).map (fun v => v.vtype)))

/-- One cell of the comparison matrix: found, and severity and message
of the first matching issue when found. -/
structure CompEntry where
  found : Bool
  severity : Option Severity := none
  message : Option String := none
deriving DecidableEq, Repr

/-- The cell recorded for one result and one rule_id in
validate_with_comparison: matching[0] when the result has matching
issues, found False otherwise. -/
def entryFor (r : ValidationResult) (rid : String) : CompEntry :=
  match r.issues.filter (fun i => i.rule_id = rid) with
  | [] => { found := false }
  | i :: _ => { found := true, severity := some i.severity, message := some i.message }

/-- Python dict assignment row["validators"][name] = entry: replace in
place when the key exists, append otherwise. -/
def upsert (row : List (String × CompEntry)) (k : String) (e : CompEntry) :
    List (String × CompEntry) :=
  match row with
  | [] => [(k, e)]
  | (k0, e0) :: rest => if k0 = k then (k, e) :: rest else (k0, e0) :: upsert rest k e

/-- Code-point lexicographic comparison of two character lists, the
order Python sorted() applies to strings. -/
def lexLe : List Char → List Char → Bool
  | [], _ => true
  | _ :: _, [] => false
  | a :: as, b :: bs => if a < b then true else if a = b then lexLe as bs else false

/-- Insertion sort step for the sorted() call over the rule-id set. -/
def insertStr (s : String) : List String → List String
  | [] => [s]
  | t :: rest => if lexLe s.toList t.toList then s :: t :: rest else t :: insertStr s rest

/-- sorted(set(...)): the distinct rule ids in ascending order. -/
def sortedDedup (l : List String) : List String :=
  l.dedup.foldr insertStr []

/-- All rule ids across all results (the union scanned by
validate_with_comparison before building the matrix). -/
def allRuleIds (results : List ValidationResult) : List String :=
  results.flatMap (fun r => r.issues.map (fun i => i.rule_id))

/-- The comparison matrix of validate_with_comparison: one row per
distinct rule_id in sorted order; each row maps validator names (a
Python dict filled in result order) to their cell. -/
def comparisonRows (results : List ValidationResult) :
    List (String × List (String × CompEntry)) :=
  (sortedDedup (allRuleIds results)).map (fun rid =>
    (rid, results.foldl (fun row r => upsert row r.validator_name (entryFor r rid)) []))

/-- ValidatorRegistry.validate_with_comparison from registry.py: run
the selected validators, then derive the comparison matrix from the
collected results (the dict merge with result.to_dict is projection
only). -/
def validateWithComparison (reg : List RegValidator) (run : RunOutcome)
    (selection : List String) :
    MultiValidationResult × List (String × List (String × CompEntry)) :=
  let m := validate reg run (some selection)
  (m, comparisonRows m.results)

end ValidatorRegistry

/-- XSLT language versions, from transformer.py (class XSLTVersion). -/
inductive XSLTVersion where
  | V1_0
  | V2_0
  | V3_0
deriving DecidableEq, Repr

/-- The value of an XSLTVersion member (its string payload). -/
def XSLTVersion.value : XSLTVersion → String
  | XSLTVersion.V1_0 => "1.0"
  | XSLTVersion.V2_0 => "2.0"
  | XSLTVersion.V3_0 => "3.0"

/-- Outcome of TransformerService.transform, from transformer.py
(dataclass TransformResult). -/
structure TransformResult where
  success : Bool
  output : Option String := none
  error : Option String := none
  xslt_version : Option XSLTVersion := none
  processor : Option String := none
deriving DecidableEq, Repr

namespace TransformerService

/-- The whitespace class of the regex escape backslash-s, as matched by
the version-detection pattern (the ASCII members; the Python pattern on
str also admits the rare non-ASCII Unicode spaces, which never occur in
stylesheets of interest). -/
def isWsChar (c : Char) : Bool :=
  c = ' ' || c = '\t' || c = '\n' || c = '\r' || c = '\x0b' || c = '\x0c'

/-- Quote characters admitted by the character classes around the
captured version number. -/
def isQuote (c : Char) : Bool :=
  c = '"' || c = '\''

/-- Case-insensitive literal match (re.IGNORECASE): consume the given
lowercase pattern from the front of the input, returning the rest. -/
def matchCI : List Char → List Char → Option (List Char)
  | [], rest => some rest
  | _ :: _, [] => none
  | p :: ps, c :: rest => if c.toLower = p then matchCI ps rest else none

/-- Skip a maximal run of whitespace (the greedy backslash-s star;
greedy and lazy coincide here because the following literal is never
whitespace). -/
def skipWs : List Char → List Char
  | [] => []
  | c :: rest => if isWsChar c then skipWs rest else c :: rest

/-- After the first digit run and the dot: the second digit run must be
non-empty and be closed by a quote; the capture is first run, dot,
second run. -/
def afterDot (d1 cs7 : List Char) : Option (List Char) :=
  let d2 := cs7.takeWhile Char.isDigit
  let cs8 := cs7.dropWhile Char.isDigit
  if d2 = [] then none
  else
    match cs8 with
    | q2 :: _ => if isQuote q2 then some (d1 ++ '.' :: d2) else none
    | [] => none

/-- After the opening quote: a non-empty digit run followed by the
literal dot. -/
def afterQuote (cs5 : List Char) : Option (List Char) :=
  let d1 := cs5.takeWhile Char.isDigit
  let cs6 := cs5.dropWhile Char.isDigit
  if d1 = [] then none
  else
    match cs6 with
    | [] => none
    | c6 :: cs7 => if c6 = '.' then afterDot d1 cs7 else none

/-- After the equals sign: optional whitespace then an opening quote. -/
def afterEq (cs3 : List Char) : Option (List Char) :=
  match skipWs cs3 with
  | [] => none
  | q :: cs5 => if isQuote q then afterQuote cs5 else none

/-- After the literal version: optional whitespace then the equals
sign. -/
def afterVersion (cs1 : List Char) : Option (List Char) :=
  match skipWs cs1 with
  | [] => none
  | c3 :: cs3 => if c3 = '=' then afterEq cs3 else none

/-- Match the tail pattern of the version regex at the current point:
the literal version, optional whitespace, an equals sign, optional
whitespace, a quote, digits dot digits (captured), a quote.  Digits are
ASCII (the Python str pattern backslash-d also admits non-ASCII Unicode
digits, irrelevant to stylesheets of interest).  The two quote classes
are independent in the source pattern, so mismatched quotes are
accepted there too. -/
def matchVersionAttr (cs : List Char) : Option (List Char) :=
  match matchCI "version".toList cs with
  | none => none
  | some cs1 => afterVersion cs1

/-- The greedy gap of the pattern (one or more characters other than a
closing angle bracket) followed by the version attribute pattern: the
gap must consume at least one character, extends as far as possible
(longest match preferred, mirroring greedy backtracking) and never
crosses a closing angle bracket. -/
def gapScan : List Char → Option (List Char)
  | [] => none
  | c :: rest =>
    if c = '>' then none
    else
      match gapScan rest with
      | some v => some v
      | none => matchVersionAttr rest

/-- Attempt the whole version pattern at the current position: the
literal xsl tag opener, then stylesheet or transform, then the gap and
the version attribute.  The two alternatives never both prefix-match,
so first-alternative preference is vacuous. -/
def matchStylesheetTag (cs : List Char) : Option (List Char) :=
  match matchCI "<xsl:".toList cs with
  | none => none
  | some cs1 =>
    match matchCI "stylesheet".toList cs1 with
    | some cs2 => gapScan cs2
    | none =>
      match matchCI "transform".toList cs1 with
      | some cs2 => gapScan cs2
      | none => none

/-- re.search: try the pattern at every position, leftmost first. -/
def regexSearch : List Char → Option (List Char)
  | [] => none
  | c :: rest =>
    match matchStylesheetTag (c :: rest) with
    | some v => some v
    | none => regexSearch rest

/-- Python str.startswith with a one-character argument on the captured
version text: its first character is that character. -/
def versionStarts (v : List Char) (c : Char) : Bool :=
  match v with
  | [] => false
  | c0 :: _ => c0 = c

/-- TransformerService.detect_xslt_version from transformer.py: search
the decoded stylesheet text for the version pattern; a captured value
starting with 3 is XSLT 3.0, starting with 2 is XSLT 2.0, anything
else (or no match) is XSLT 1.0. -/
def detect_xslt_version (content : List Char) : XSLTVersion :=
  match regexSearch content with
  | some v =>
    if versionStarts v '3' then XSLTVersion.V3_0
    else if versionStarts v '2' then XSLTVersion.V2_0
    else XSLTVersion.V1_0
  | none => XSLTVersion.V1_0

/-- Environment of library oracles for TransformerService.
parseXml models ET.fromstring (an XMLSyntaxError message or a document
handle), makeXslt models ET.XSLT on a parsed stylesheet document (an
XSLTParseError message or a compiled handle), applyXslt models running
a compiled stylesheet (an XSLTApplyError message or a result-tree
handle), serialize models ET.tostring with the UTF-8 declaration,
md5 models hashlib.md5(...).hexdigest() on the stylesheet bytes.
saxonAvailable models the module flag SAXON_AVAILABLE; saxonRun models
the whole Saxon block on (xml, xslt) and saxonErrMsg the error_message
read when Saxon returns None. -/
structure Env where
  parseXml : String → Except String String
  makeXslt : String → Except String String
  applyXslt : String → String → Except String String
  serialize : String → String
  md5 : String → String
  saxonAvailable : Bool
  saxonRun : String → String → Except String (Option String)
  saxonErrMsg : String

/-- The process-wide compiled-stylesheet cache _lxml_cache, keyed by
content hash (most recent insertion first). -/
abbrev LxmlCache := List (String × String)

/-- The steps of _transform_lxml after the compiled stylesheet is in
hand: parse the document, apply the stylesheet, serialize. -/
def lxmlApply (env : Env) (compiled : String) (xml : String) : TransformResult :=
  match env.parseXml xml with
  | Except.error e =>
    { success := false, error := some ("XML parse error: " ++ e)
      xslt_version := some XSLTVersion.V1_0, processor := some "lxml" }
  | Except.ok doc =>
    match env.applyXslt compiled doc with
    | Except.error e =>
      { success := false, error := some ("XSLT transform error: " ++ e)
        xslt_version := some XSLTVersion.V1_0, processor := some "lxml" }
    | Except.ok result =>
      { success := true, output := some (env.serialize result)
        xslt_version := some XSLTVersion.V1_0, processor := some "lxml" }

/-- TransformerService._transform_lxml from transformer.py: hash the
stylesheet, compile and cache on a miss (parsing the stylesheet raises
XMLSyntaxError, compiling it raises XSLTParseError; neither populates
the cache), then parse, apply and serialize.  The parameters argument
is omitted: every claim under verification uses parameter-free calls,
and the source threads it through unchanged. -/
def transformLxml (env : Env) (cache : LxmlCache) (xml xslt : String) :
    TransformResult × LxmlCache :=
  let key := env.md5 xslt
  match cache.lookup key with
  | some compiled => (lxmlApply env compiled xml, cache)
  | none =>
    match env.parseXml xslt with
    | Except.error e =>
      ({ success := false, error := some ("XML parse error: " ++ e)
         xslt_version := some XSLTVersion.V1_0, processor := some "lxml" }, cache)
    | Except.ok xsltDoc =>
      match env.makeXslt xsltDoc with
      | Except.error e =>
        ({ success := false, error := some ("XSLT parse error: " ++ e)
           xslt_version := some XSLTVersion.V1_0, processor := some "lxml" }, cache)
      | Except.ok compiled =>
        (lxmlApply env compiled xml, (key, compiled) :: cache)

/-- TransformerService._transform_saxon from transformer.py, for the
case where the processor singleton is available: a raised exception, a
None result (with the processor error message), or the encoded output. -/
def transformSaxon (env : Env) (xml xslt : String) (version : XSLTVersion) :
    TransformResult :=
  match env.saxonRun xml xslt with
  | Except.error e =>
    { success := false, error := some ("Saxon error: " ++ e)
      xslt_version := some version, processor := some "saxon" }
  | Except.ok none =>
    { success := false, error := some ("Saxon transform failed: " ++ env.saxonErrMsg)
      xslt_version := some version, processor := some "saxon" }
  | Except.ok (some out) =>
    { success := true, output := some out
      xslt_version := some version, processor := some "saxon" }

/-- The unavailable-processor failure returned by transform for XSLT
2.0 and 3.0 stylesheets when saxonche is not importable. -/
def saxonMissingResult (version : XSLTVersion) : TransformResult :=
  { success := false
    error := some ("XSLT " ++ version.value ++
      " requires saxonche. Install with: pip install saxonche")
    xslt_version := some version }

/-- The version used by transform: force_version when supplied (the
enum values are all truthy), else the detected version. -/
def effectiveVersion (force_version : Option XSLTVersion) (xslt : String) :
    XSLTVersion :=
  match force_version with
  | some v => v
  | none => detect_xslt_version xslt.toList

/-- TransformerService.transform from transformer.py: detected (or
forced) version, lxml for XSLT 1.0, Saxon for 2.0 and 3.0 when
available, the structured failure when not.  The cache is threaded
explicitly; only the lxml path touches it. -/
def transform (env : Env) (cache : LxmlCache) (xml xslt : String)
    (force_version : Option XSLTVersion) : TransformResult × LxmlCache :=
  match effectiveVersion force_version xslt with
  | XSLTVersion.V1_0 => transformLxml env cache xml xslt
  | v =>
    if env.saxonAvailable then (transformSaxon env xml xslt v, cache)
    else (saxonMissingResult v, cache)

end TransformerService

/-!
Theorems.  Each claim of the specification is settled below; helper
lemmas are shared, claim-facing theorems are self-contained.
-/

/-- C6: for every input document and options, each local validator's
validate operation returns a result satisfying
success == (no issue in the result has severity Error). -/
theorem local_validators_success_iff_no_error
    (xe : XSDValidator.Env) (se : SchematronValidator.Env) (xml : String)
    (schema_path : Option String) (auto_detect : Bool)
    (schematron profile : Option String) :
    ((XSDValidator.validate xe xml schema_path auto_detect).success
      = !((XSDValidator.validate xe xml schema_path auto_detect).issues.any
          (fun i => i.severity = Severity.error)))
    ∧ ((SchematronValidator.validate se xml schematron profile).success
      = !((SchematronValidator.validate se xml schematron profile).issues.any
          (fun i => i.severity = Severity.error))) := by
  constructor
  · unfold XSDValidator.validate
    split
    · simp [XSDValidator.syntaxResult]
    · split
      · simp [XSDValidator.noSchemaResult]
      · split
        · simp
        · simp only [List.any_map, Function.comp]
          rename_i h
          simp
          exact List.exists_mem_of_ne_nil _ h
  · unfold SchematronValidator.validate
    split
    · simp [SchematronValidator.syntaxResult]
    · split
      · simp [SchematronValidator.noRulesResult]
      · split
        · simp
        · simp

/-- C7: for every well-formed document for which no schema resolves by
namespace (no explicit override and no hit in the SCHEMA_MAP table),
the structural validator succeeds with exactly one Info issue noting
that the document is well-formed with no schema available. -/
theorem xsd_no_schema_is_lenient
    (env : XSDValidator.Env) (xml : String) (doc : XmlDoc)
    (hparse : env.parse xml = Except.ok doc)
    (htable : ∀ ns, pythonNs doc.tag = some ns →
      XSDValidator.SCHEMA_MAP.lookup ns = none) :
    XSDValidator.validate env xml none true = XSDValidator.noSchemaResult
    ∧ XSDValidator.noSchemaResult.success = true
    ∧ XSDValidator.noSchemaResult.issues.length = 1
    ∧ ∀ i ∈ XSDValidator.noSchemaResult.issues, i.severity = Severity.info := by
  refine ⟨?_, rfl, rfl, by simp [XSDValidator.noSchemaResult]⟩
  have hdet : XSDValidator.getSchema env doc none true = none := by
    unfold XSDValidator.getSchema XSDValidator.detectSchema
    cases hns : pythonNs doc.tag with
    | none => simp
    | some ns => simp [htable ns hns]
  unfold XSDValidator.validate
  simp only [hparse, hdet]

/-- Witness for C7: a well-formed document in a namespace outside
SCHEMA_MAP gets the lenient no-schema result even though the
environment could load schemas and would find schema errors. -/
theorem xsd_no_schema_is_lenient_witness :
    XSDValidator.validate
      { parse := fun _ => Except.ok { tag := "\x7burn:example:other\x7dInvoice" }
        loadSchema := fun p => some p
        checkSchema := fun _ _ => [{ message := "boom", line := 1, column := 2 }] }
      "<Invoice xmlns=\"urn:example:other\"/>" none true
      = XSDValidator.noSchemaResult :=
  (xsd_no_schema_is_lenient
    { parse := fun _ => Except.ok { tag := "\x7burn:example:other\x7dInvoice" }
      loadSchema := fun p => some p
      checkSchema := fun _ _ => [{ message := "boom", line := 1, column := 2 }] }
    "<Invoice xmlns=\"urn:example:other\"/>"
    { tag := "\x7burn:example:other\x7dInvoice" } rfl
    (fun ns hns => by
      have hval : pythonNs "\x7burn:example:other\x7dInvoice" = some "urn:example:other" := by
        decide
      rw [hval] at hns
      cases hns
      decide)).1

/-- C10: when the caller supplies an explicit schema path that does not
resolve to a loadable schema, the structural validator neither reports
an error nor falls back to namespace auto-detection: it returns the
lenient no-schema result, the same result as a call with no schema
requested and auto-detection off, whatever the auto_detect flag and the
rest of the environment say. -/
theorem xsd_explicit_schema_load_failure_is_lenient
    (env : XSDValidator.Env) (xml : String) (doc : XmlDoc) (p : String)
    (auto_detect : Bool)
    (hparse : env.parse xml = Except.ok doc)
    (hp : p ≠ "")
    (hload : env.loadSchema p = none) :
    XSDValidator.validate env xml (some p) auto_detect = XSDValidator.noSchemaResult
    ∧ XSDValidator.validate env xml (some p) auto_detect
      = XSDValidator.validate env xml none false := by
  have h1 : XSDValidator.validate env xml (some p) auto_detect
      = XSDValidator.noSchemaResult := by
    have hget : XSDValidator.getSchema env doc (some p) auto_detect = none := by
      unfold XSDValidator.getSchema
      simp [hp, hload]
    unfold XSDValidator.validate
    simp only [hparse, hget]
  have h2 : XSDValidator.validate env xml none false
      = XSDValidator.noSchemaResult := by
    have hget : XSDValidator.getSchema env doc none false = none := by
      unfold XSDValidator.getSchema
      simp
    unfold XSDValidator.validate
    simp only [hparse, hget]
  exact ⟨h1, h1.trans h2.symm⟩

/-- Witness for C10: an explicit path that fails to load yields the
lenient result even though auto-detection is on and would have found a
schema for the document namespace (the UBL Invoice namespace is in
SCHEMA_MAP and the environment loads it). -/
theorem xsd_explicit_schema_load_failure_witness :
    XSDValidator.validate
      { parse := fun _ =>
          Except.ok { tag := "\x7burn:oasis:names:specification:ubl:schema:xsd:Invoice-2\x7dInvoice" }
        loadSchema := fun q => if q = "missing.xsd" then none else some q
        checkSchema := fun _ _ => [{ message := "boom", line := 1, column := 2 }] }
      "<Invoice/>" (some "missing.xsd") true
      = XSDValidator.noSchemaResult :=
  (xsd_explicit_schema_load_failure_is_lenient
    { parse := fun _ =>
        Except.ok { tag := "\x7burn:oasis:names:specification:ubl:schema:xsd:Invoice-2\x7dInvoice" }
      loadSchema := fun q => if q = "missing.xsd" then none else some q
      checkSchema := fun _ _ => [{ message := "boom", line := 1, column := 2 }] }
    "<Invoice/>"
    { tag := "\x7burn:oasis:names:specification:ubl:schema:xsd:Invoice-2\x7dInvoice" }
    "missing.xsd" true rfl (by decide) (by simp)).1

/-- Counterexample for C1: the remote validator performs no local
well-formedness check at all, so a malformed document does not produce
an XML_SYNTAX issue there.  On the malformed input from the
specification's own scenario, with the remote service unreachable, the
first (and only) issue of the Helger result has rule_id
HELGER_CONNECTION, not XML_SYNTAX. -/
theorem helger_no_syntax_shortcircuit_cex :
    (HelgerValidator.validate
        { remote := fun _ _ => Except.error "connection refused" }
        "<invalid><unclosed>" none).issues.map (fun i => i.rule_id)
      = ["HELGER_CONNECTION"]
    ∧ "HELGER_CONNECTION" ≠ "XML_SYNTAX" := by
  exact ⟨rfl, by decide⟩

/-- C1 (amended): both local validators short-circuit on malformed XML
with success false and a single XML_SYNTAX Error issue, performing no
semantic checks (the result is a fixed record, whatever the schema,
rule and option environments contain); the remote validator performs no
local well-formedness check, and on a transport failure its result is
the HELGER_CONNECTION error result with success false. -/
theorem validators_on_malformed_xml
    (xe : XSDValidator.Env) (se : SchematronValidator.Env)
    (he : HelgerValidator.Env) (xml : String) (e1 e2 : ParseErr)
    (err : String) (schema_path : Option String) (auto_detect : Bool)
    (schematron profile vesid : Option String)
    (h1 : xe.parse xml = Except.error e1)
    (h2 : se.parse xml = Except.error e2)
    (h3 : he.remote xml (HelgerValidator.effectiveVesid vesid) = Except.error err) :
    XSDValidator.validate xe xml schema_path auto_detect = XSDValidator.syntaxResult e1
    ∧ SchematronValidator.validate se xml schematron profile
      = SchematronValidator.syntaxResult e2
    ∧ (XSDValidator.syntaxResult e1).success = false
    ∧ ((XSDValidator.syntaxResult e1).issues.map (fun i => i.rule_id)) = ["XML_SYNTAX"]
    ∧ (SchematronValidator.syntaxResult e2).success = false
    ∧ ((SchematronValidator.syntaxResult e2).issues.map (fun i => i.rule_id)) = ["XML_SYNTAX"]
    ∧ HelgerValidator.validate he xml vesid = HelgerValidator.connectionResult err
    ∧ (HelgerValidator.connectionResult err).success = false
    ∧ ((HelgerValidator.connectionResult err).issues.map (fun i => i.rule_id))
      = ["HELGER_CONNECTION"] := by
  refine ⟨?_, ?_, rfl, rfl, rfl, rfl, ?_, rfl, rfl⟩
  · unfold XSDValidator.validate
    simp only [h1]
  · unfold SchematronValidator.validate
    simp only [h2]
  · unfold HelgerValidator.validate
    simp only [h3]

/-- Witness for the amended C1: concrete environments whose parses fail
and whose remote call fails produce exactly the three short-circuit
results. -/
theorem validators_on_malformed_xml_witness :
    XSDValidator.validate
      { parse := fun _ => Except.error { msg := "mismatched tag", line := 1 }
        loadSchema := fun p => some p
        checkSchema := fun _ _ => [] }
      "<invalid><unclosed>" none true
      = XSDValidator.syntaxResult { msg := "mismatched tag", line := 1 } :=
  (validators_on_malformed_xml
    { parse := fun _ => Except.error { msg := "mismatched tag", line := 1 }
      loadSchema := fun p => some p
      checkSchema := fun _ _ => [] }
    { parse := fun _ => Except.error { msg := "mismatched tag", line := 1 }
      loadXslt := fun p => some p
      applyXslt := fun _ _ => Except.ok {} }
    { remote := fun _ _ => Except.error "down" }
    "<invalid><unclosed>" { msg := "mismatched tag", line := 1 }
    { msg := "mismatched tag", line := 1 } "down" none true none none none
    rfl rfl rfl).1

/-- C4: for every document and stylesheet whose effective (forced or
detected) version is Level-2 or Level-3, when the Saxon processor is
unavailable the transform returns the structured failure that carries
the detected version in its version field and names it in the error
text, produces no output, and leaves the stylesheet cache untouched;
the equation holds for every lxml oracle, so no fallback to the primary
processor is attempted. -/
theorem transform_unsupported_version_fails_closed
    (env : TransformerService.Env) (cache : TransformerService.LxmlCache)
    (xml xslt : String) (force_version : Option XSLTVersion)
    (hsaxon : env.saxonAvailable = false)
    (hver : TransformerService.effectiveVersion force_version xslt ≠ XSLTVersion.V1_0) :
    TransformerService.transform env cache xml xslt force_version
      = (TransformerService.saxonMissingResult
          (TransformerService.effectiveVersion force_version xslt), cache)
    ∧ ∀ v, (TransformerService.saxonMissingResult v).success = false
      ∧ (TransformerService.saxonMissingResult v).output = none
      ∧ (TransformerService.saxonMissingResult v).xslt_version = some v
      ∧ (TransformerService.saxonMissingResult v).error
        = some ("XSLT " ++ v.value ++ " requires saxonche. Install with: pip install saxonche") := by
  refine ⟨?_, fun v => ⟨rfl, rfl, rfl, rfl⟩⟩
  unfold TransformerService.transform
  cases hv : TransformerService.effectiveVersion force_version xslt with
  | V1_0 => exact absurd hv hver
  | V2_0 => simp only [hv, hsaxon, Bool.false_eq_true, if_false]
  | V3_0 => simp only [hv, hsaxon, Bool.false_eq_true, if_false]

/-- Witness for C4: with Saxon unavailable, a forced 2.0 transformation
fails closed with the version in the result, for an environment whose
lxml oracle would have succeeded. -/
theorem transform_unsupported_version_witness :
    TransformerService.transform
      { parseXml := fun s => Except.ok s
        makeXslt := fun s => Except.ok s
        applyXslt := fun _ d => Except.ok d
        serialize := fun d => d
        md5 := fun s => s
        saxonAvailable := false
        saxonRun := fun _ _ => Except.error "unavailable"
        saxonErrMsg := "" }
      [] "<doc/>" "<xsl:stylesheet version=\"2.0\"/>" (some XSLTVersion.V2_0)
      = (TransformerService.saxonMissingResult XSLTVersion.V2_0, []) :=
  (transform_unsupported_version_fails_closed
    { parseXml := fun s => Except.ok s
      makeXslt := fun s => Except.ok s
      applyXslt := fun _ d => Except.ok d
      serialize := fun d => d
      md5 := fun s => s
      saxonAvailable := false
      saxonRun := fun _ _ => Except.error "unavailable"
      saxonErrMsg := "" }
    [] "<doc/>" "<xsl:stylesheet version=\"2.0\"/>" (some XSLTVersion.V2_0)
    rfl (by decide)).1

/-- The lxml path returns the same result when re-run on the cache it
produced: a fresh compilation is inserted under its hash and found
there by the second call, and every failure path leaves the cache
unchanged. -/
theorem transformLxml_idem (env : TransformerService.Env)
    (cache : TransformerService.LxmlCache) (xml xslt : String) :
    (TransformerService.transformLxml env
        (TransformerService.transformLxml env cache xml xslt).2 xml xslt).1
      = (TransformerService.transformLxml env cache xml xslt).1 := by
  cases hl : List.lookup (env.md5 xslt) cache with
  | some c => simp only [TransformerService.transformLxml, hl]
  | none =>
    cases hp : env.parseXml xslt with
    | error e => simp only [TransformerService.transformLxml, hl, hp]
    | ok d =>
      cases hm : env.makeXslt d with
      | error e => simp only [TransformerService.transformLxml, hl, hp, hm]
      | ok c =>
        simp only [TransformerService.transformLxml, hl, hp, hm]
        have hfound : List.lookup (env.md5 xslt) ((env.md5 xslt, c) :: cache) = some c := by
          simp [List.lookup]
        simp only [hfound]

/-- C9: transforming the same (document, stylesheet) pair twice in
succession yields identical results, from every starting cache state:
the compiled-stylesheet cache only memoises, so a repeat call (cache
hit or not) returns the same TransformResult, and in particular two
successful runs return byte-identical output. -/
theorem transform_idempotent (env : TransformerService.Env)
    (cache : TransformerService.LxmlCache) (xml xslt : String)
    (force_version : Option XSLTVersion) :
    (TransformerService.transform env
        (TransformerService.transform env cache xml xslt force_version).2
        xml xslt force_version).1
      = (TransformerService.transform env cache xml xslt force_version).1 := by
  unfold TransformerService.transform
  cases hv : TransformerService.effectiveVersion force_version xslt with
  | V1_0 =>
    simp only [hv]
    exact transformLxml_idem env cache xml xslt
  | V2_0 => by_cases hsa : env.saxonAvailable <;> simp [hv, hsa]
  | V3_0 => by_cases hsa : env.saxonAvailable <;> simp [hv, hsa]

/-- Counterexample for C2: a non-empty selection in which no name
resolves produces the early-return MultiValidationResult with
overall_success false and no results, while all(r.success) over the
empty result list is true, so the stated invariant fails on this run. -/
theorem registry_empty_resolution_cex :
    (ValidatorRegistry.validate ValidatorRegistry.defaultRegistry
        (fun _ => Except.error "down") (some ["nonexistent"])).overall_success = false
    ∧ (ValidatorRegistry.validate ValidatorRegistry.defaultRegistry
        (fun _ => Except.error "down") (some ["nonexistent"])).results = []
    ∧ (ValidatorRegistry.validate ValidatorRegistry.defaultRegistry
        (fun _ => Except.error "down") (some ["nonexistent"])).results.all
        (fun r => r.success) = true
    ∧ (ValidatorRegistry.validate ValidatorRegistry.defaultRegistry
        (fun _ => Except.error "down") (some ["nonexistent"])).overall_success
      ≠ (ValidatorRegistry.validate ValidatorRegistry.defaultRegistry
        (fun _ => Except.error "down") (some ["nonexistent"])).results.all
        (fun r => r.success) := by
  refine ⟨rfl, rfl, rfl, ?_⟩
  intro h
  exact Bool.false_ne_true (by exact h)

/-- C2 (amended): the two issue totals equal the per-result sums for
every selection, and overall_success equals the conjunction of the
per-result success flags whenever the selection resolves to at least
one validator; when nothing resolves, the registry instead returns the
fixed empty result with overall_success false and zero totals. -/
theorem registry_aggregation_invariants
    (reg : List ValidatorRegistry.RegValidator) (run : ValidatorRegistry.RunOutcome)
    (selection : Option (List String)) :
    ((ValidatorRegistry.validate reg run selection).total_errors
      = ((ValidatorRegistry.validate reg run selection).results.map
          (fun r => r.errors.length)).sum)
    ∧ ((ValidatorRegistry.validate reg run selection).total_warnings
      = ((ValidatorRegistry.validate reg run selection).results.map
          (fun r => r.warnings.length)).sum)
    ∧ (ValidatorRegistry.resolveValidators reg selection ≠ [] →
        (ValidatorRegistry.validate reg run selection).overall_success
        = (ValidatorRegistry.validate reg run selection).results.all (fun r => r.success))
    ∧ (ValidatorRegistry.resolveValidators reg selection = [] →
        ValidatorRegistry.validate reg run selection
        = { results := [], overall_success := false, total_errors := 0,
            total_warnings := 0 }) := by
  unfold ValidatorRegistry.validate
  by_cases h : ValidatorRegistry.resolveValidators reg selection = []
  · simp [h]
  · simp [h]

/-- Witness for the amended C2: on the default registry with all
validators selected (a resolving selection), overall_success coincides
with the conjunction of the per-result flags. -/
theorem registry_aggregation_invariants_witness :
    (ValidatorRegistry.validate ValidatorRegistry.defaultRegistry
        (fun v => if v.isLocal
          then Except.ok { validator_name := v.name, validator_type := v.vtype,
                           success := true, issues := [] }
          else Except.error "down") none).overall_success
      = (ValidatorRegistry.validate ValidatorRegistry.defaultRegistry
        (fun v => if v.isLocal
          then Except.ok { validator_name := v.name, validator_type := v.vtype,
                           success := true, issues := [] }
          else Except.error "down") none).results.all (fun r => r.success) :=
  (registry_aggregation_invariants ValidatorRegistry.defaultRegistry
    (fun v => if v.isLocal
      then Except.ok { validator_name := v.name, validator_type := v.vtype,
                       success := true, issues := [] }
      else Except.error "down") none).2.2.1 (by decide)

/-- C5: a batch run never loses entries and never propagates validator
exceptions.  The result list has exactly one entry per resolved
validator; a selection entry whose type name is not registered is
dropped without changing anything else (provided some other name still
resolves, since an entirely unresolvable non-empty selection
early-returns while an empty one means run-all); and every selected
validator whose run raised contributes exactly the synthetic
VALIDATOR_ERROR result (the local placeholder shape for local
validators, the named shape for external ones). -/
theorem registry_error_isolation
    (reg : List ValidatorRegistry.RegValidator) (run : ValidatorRegistry.RunOutcome)
    (selection : Option (List String)) :
    ((ValidatorRegistry.validate reg run selection).results.length
      = (ValidatorRegistry.resolveValidators reg selection).length)
    ∧ (∀ t l1 l2, (∀ v ∈ reg, v.vtype ≠ t) → l1 ++ l2 ≠ [] →
        ValidatorRegistry.validate reg run (some (l1 ++ t :: l2))
        = ValidatorRegistry.validate reg run (some (l1 ++ l2)))
    ∧ (∀ v e, v ∈ ValidatorRegistry.resolveValidators reg selection →
        run v = Except.error e →
        (if v.isLocal then ValidatorRegistry.syntheticLocal e
         else ValidatorRegistry.syntheticExternal v e)
          ∈ (ValidatorRegistry.validate reg run selection).results) := by
  refine ⟨?_, ?_, ?_⟩
  · unfold ValidatorRegistry.validate
    by_cases h : ValidatorRegistry.resolveValidators reg selection = []
    · simp [h]
    · simp only [h, if_false, ValidatorRegistry.collectResults, List.length_append,
        List.length_map]
      exact (List.length_eq_length_filter_add
        (fun v : ValidatorRegistry.RegValidator => v.isLocal)).symm
  · intro t l1 l2 hnot hne
    have hfind : reg.find? (fun v => v.vtype = t) = none := by
      rw [List.find?_eq_none]
      intro v hv
      simp [hnot v hv]
    have hres : ValidatorRegistry.resolveValidators reg (some (l1 ++ t :: l2))
        = ValidatorRegistry.resolveValidators reg (some (l1 ++ l2)) := by
      unfold ValidatorRegistry.resolveValidators
      simp [hne, List.filterMap_append, List.filterMap_cons, hfind]
    unfold ValidatorRegistry.validate
    rw [hres]
  · intro v e hv hrun
    have hne : ValidatorRegistry.resolveValidators reg selection ≠ [] := by
      intro h0
      rw [h0] at hv
      exact List.not_mem_nil v hv
    unfold ValidatorRegistry.validate
    simp only [hne, if_false, ValidatorRegistry.collectResults]
    by_cases hl : v.isLocal
    · refine List.mem_append_left _ ?_
      have hvf : v ∈ (ValidatorRegistry.resolveValidators reg selection).filter
          (fun v => v.isLocal) := List.mem_filter.mpr ⟨hv, by simp [hl]⟩
      have hmem := List.mem_map_of_mem
        (fun v => match run v with
          | Except.ok r => r
          | Except.error e => ValidatorRegistry.syntheticLocal e) hvf
      simp only [hrun] at hmem
      simpa [hl] using hmem
    · refine List.mem_append_right _ ?_
      have hvf : v ∈ (ValidatorRegistry.resolveValidators reg selection).filter
          (fun v => !v.isLocal) := List.mem_filter.mpr ⟨hv, by simp [hl]⟩
      have hmem := List.mem_map_of_mem
        (fun v => match run v with
          | Except.ok r => r
          | Except.error e => ValidatorRegistry.syntheticExternal v e) hvf
      simp only [hrun] at hmem
      simpa [hl] using hmem

/-- Witness for C5: on the default registry with every validator
selected and the remote one raising, the synthetic external result for
the Helger validator is among the collected results. -/
theorem registry_error_isolation_witness :
    ValidatorRegistry.syntheticExternal
        { name := "Helger WSDVS", vtype := "helger", isLocal := false } "down"
      ∈ (ValidatorRegistry.validate ValidatorRegistry.defaultRegistry
          (fun v => if v.isLocal
            then Except.ok { validator_name := v.name, validator_type := v.vtype,
                             success := true, issues := [] }
            else Except.error "down") none).results :=
  (registry_error_isolation ValidatorRegistry.defaultRegistry
    (fun v => if v.isLocal
      then Except.ok { validator_name := v.name, validator_type := v.vtype,
                       success := true, issues := [] }
      else Except.error "down") none).2.2
    { name := "Helger WSDVS", vtype := "helger", isLocal := false } "down"
    (by decide) rfl

/-- Inserting under a key absent from the row appends. -/
theorem upsert_fresh (row : List (String × ValidatorRegistry.CompEntry))
    (k : String) (e : ValidatorRegistry.CompEntry)
    (h : ∀ p ∈ row, p.1 ≠ k) :
    ValidatorRegistry.upsert row k e = row ++ [(k, e)] := by
  induction row with
  | nil => rfl
  | cons p rest ih =>
    obtain ⟨k0, e0⟩ := p
    have hk0 : k0 ≠ k := h (k0, e0) (List.mem_cons_self _ _)
    simp only [ValidatorRegistry.upsert, if_neg hk0, List.cons_append, List.cons.injEq,
      true_and]
    exact ih (fun q hq => h q (List.mem_cons_of_mem _ hq))

/-- Folding the row-filling loop over results with pairwise distinct
validator names, starting from a row whose keys avoid those names,
appends one cell per result. -/
theorem foldl_upsert_eq (rid : String) :
    ∀ (results : List ValidationResult)
      (acc : List (String × ValidatorRegistry.CompEntry)),
      (results.map (fun r => r.validator_name)).Nodup →
      (∀ p ∈ acc, ∀ r ∈ results, p.1 ≠ r.validator_name) →
      results.foldl (fun row r =>
          ValidatorRegistry.upsert row r.validator_name
            (ValidatorRegistry.entryFor r rid)) acc
        = acc ++ results.map
            (fun r => (r.validator_name, ValidatorRegistry.entryFor r rid)) := by
  intro results
  induction results with
  | nil => intro acc _ _; simp
  | cons r rs ih =>
    intro acc hnd hdisj
    simp only [List.map_cons] at hnd
    have hnotin := (List.nodup_cons.mp hnd).1
    have hnd2 := (List.nodup_cons.mp hnd).2
    simp only [List.foldl_cons]
    rw [upsert_fresh acc r.validator_name _
      (fun p hp => hdisj p hp r (List.mem_cons_self _ _))]
    rw [ih (acc ++ [(r.validator_name, ValidatorRegistry.entryFor r rid)]) hnd2 ?_]
    · simp
    · intro p hp r2 hr2
      rcases List.mem_append.mp hp with h | h
      · exact hdisj p h r2 (List.mem_cons_of_mem _ hr2)
      · have hp2 : p = (r.validator_name, ValidatorRegistry.entryFor r rid) := by
          simpa using h
        rw [hp2]
        intro he
        simp only at he
        apply hnotin
        rw [he]
        exact List.mem_map_of_mem (fun r => r.validator_name) hr2

/-- In the appended row, each result's name looks up its own cell when
the names are pairwise distinct. -/
theorem lookup_map_entryFor (rid : String) :
    ∀ (results : List ValidationResult),
      (results.map (fun r => r.validator_name)).Nodup →
      ∀ r ∈ results,
        List.lookup r.validator_name
            (results.map (fun r0 =>
              (r0.validator_name, ValidatorRegistry.entryFor r0 rid)))
          = some (ValidatorRegistry.entryFor r rid) := by
  intro results
  induction results with
  | nil => intro _ r hr; exact absurd hr (List.not_mem_nil r)
  | cons r0 rs ih =>
    intro hnd r hr
    simp only [List.map_cons] at hnd ⊢
    have hnotin := (List.nodup_cons.mp hnd).1
    have hnd2 := (List.nodup_cons.mp hnd).2
    rcases List.mem_cons.mp hr with rfl | hr2
    · simp [List.lookup]
    · have hne : (r.validator_name == r0.validator_name) = false := by
        rw [beq_eq_false_iff_ne]
        intro he
        exact hnotin (he ▸ List.mem_map_of_mem (fun r => r.validator_name) hr2)
      simp only [List.lookup, hne]
      exact ih hnd2 r hr2

/-- Membership is preserved by the insertion-sort step. -/
theorem mem_insertStr (a s : String) :
    ∀ l : List String, a ∈ ValidatorRegistry.insertStr s l ↔ a = s ∨ a ∈ l := by
  intro l
  induction l with
  | nil => simp [ValidatorRegistry.insertStr]
  | cons t rest ih =>
    simp only [ValidatorRegistry.insertStr]
    by_cases h : ValidatorRegistry.lexLe s.toList t.toList
    · rw [if_pos h]
      simp only [List.mem_cons]
    · rw [if_neg h]
      simp only [List.mem_cons, ih]
      tauto

/-- sorted(set(...)) has the same members as the input list. -/
theorem mem_sortedDedup (a : String) (l : List String) :
    a ∈ ValidatorRegistry.sortedDedup l ↔ a ∈ l := by
  have haux : ∀ m : List String, a ∈ m.foldr ValidatorRegistry.insertStr [] ↔ a ∈ m := by
    intro m
    induction m with
    | nil => simp
    | cons s rest ih => simp [mem_insertStr, ih]
  unfold ValidatorRegistry.sortedDedup
  rw [haux, List.mem_dedup]

/-- C8: in comparison mode over results with pairwise distinct
validator names, the matrix has one row per rule_id in the (sorted,
deduplicated) union of all rule_ids across all results; in each row
every participating result's name maps to its cell, whose found flag is
true exactly when that result contains an issue with the row's rule_id,
in which case its severity and message come from such a matching issue
(the first one). -/
theorem comparison_matrix_correct (results : List ValidationResult)
    (hnd : (results.map (fun r => r.validator_name)).Nodup) :
    ((ValidatorRegistry.comparisonRows results).map Prod.fst
      = ValidatorRegistry.sortedDedup (ValidatorRegistry.allRuleIds results))
    ∧ (∀ rid, (∃ row, (rid, row) ∈ ValidatorRegistry.comparisonRows results)
        ↔ rid ∈ ValidatorRegistry.allRuleIds results)
    ∧ (∀ rid row, (rid, row) ∈ ValidatorRegistry.comparisonRows results →
        ∀ r ∈ results, List.lookup r.validator_name row
          = some (ValidatorRegistry.entryFor r rid))
    ∧ (∀ r rid, ((ValidatorRegistry.entryFor r rid).found = true
        ↔ ∃ i ∈ r.issues, i.rule_id = rid))
    ∧ (∀ r rid, (ValidatorRegistry.entryFor r rid).found = true →
        ∃ i ∈ r.issues, i.rule_id = rid
          ∧ (ValidatorRegistry.entryFor r rid).severity = some i.severity
          ∧ (ValidatorRegistry.entryFor r rid).message = some i.message) := by
  refine ⟨?_, ?_, ?_, ?_, ?_⟩
  · unfold ValidatorRegistry.comparisonRows
    rw [List.map_map]
    exact List.map_id _
  · intro rid
    constructor
    · rintro ⟨row, hrow⟩
      have := List.mem_map.mp hrow
      rcases this with ⟨rid0, hrid0, heq⟩
      have : rid0 = rid := congrArg Prod.fst heq
      rw [← mem_sortedDedup]
      exact this ▸ hrid0
    · intro hmem
      refine ⟨(results.foldl (fun row r =>
          ValidatorRegistry.upsert row r.validator_name
            (ValidatorRegistry.entryFor r rid)) []), ?_⟩
      unfold ValidatorRegistry.comparisonRows
      exact List.mem_map_of_mem _ ((mem_sortedDedup rid _).mpr hmem)
  · intro rid row hrow r hr
    rcases List.mem_map.mp hrow with ⟨rid0, hrid0, heq⟩
    have h1 : rid0 = rid := congrArg Prod.fst heq
    subst h1
    have h2 : row = results.foldl (fun row r =>
        ValidatorRegistry.upsert row r.validator_name
          (ValidatorRegistry.entryFor r rid0)) [] := (congrArg Prod.snd heq).symm
    subst h2
    rw [foldl_upsert_eq rid0 results [] hnd (fun p hp => absurd hp (List.not_mem_nil p))]
    rw [List.nil_append]
    exact lookup_map_entryFor rid0 results hnd r hr
  · intro r rid
    unfold ValidatorRegistry.entryFor
    cases hf : r.issues.filter (fun i => i.rule_id = rid) with
    | nil =>
      simp only [Bool.false_eq_true, false_iff]
      rintro ⟨i, hi, hrid⟩
      have : i ∈ r.issues.filter (fun i => i.rule_id = rid) :=
        List.mem_filter.mpr ⟨hi, by simp [hrid]⟩
      rw [hf] at this
      exact List.not_mem_nil i this
    | cons i is =>
      simp only [true_iff]
      have hi : i ∈ r.issues.filter (fun i => i.rule_id = rid) := by
        rw [hf]; exact List.mem_cons_self _ _
      have := List.mem_filter.mp hi
      exact ⟨i, this.1, by simpa using this.2⟩
  · intro r rid
    unfold ValidatorRegistry.entryFor
    cases hf : r.issues.filter (fun i => i.rule_id = rid) with
    | nil => intro h; exact absurd h (by simp)
    | cons i is =>
      intro _
      have hi : i ∈ r.issues.filter (fun i => i.rule_id = rid) := by
        rw [hf]; exact List.mem_cons_self _ _
      have := List.mem_filter.mp hi
      exact ⟨i, this.1, by simpa using this.2, rfl, rfl⟩

/-- Witness for C8: the specification's own scenario, two validators of
which only one flags R1: the R1 row maps the flagging validator to a
found cell carrying that issue's severity and message, and the other to
a not-found cell. -/
theorem comparison_matrix_witness :
    List.lookup "XSD Schema"
        [("XSD Schema", ValidatorRegistry.entryFor
            { validator_name := "XSD Schema", validator_type := "xsd", success := false,
              issues := [{ severity := Severity.error, rule_id := "R1", message := "bad" }] }
            "R1"),
         ("Schematron", ValidatorRegistry.entryFor
            { validator_name := "Schematron", validator_type := "schematron",
              success := true, issues := [] } "R1")]
      = some { found := true, severity := some Severity.error, message := some "bad" }
    ∧ List.lookup "Schematron"
        [("XSD Schema", ValidatorRegistry.entryFor
            { validator_name := "XSD Schema", validator_type := "xsd", success := false,
              issues := [{ severity := Severity.error, rule_id := "R1", message := "bad" }] }
            "R1"),
         ("Schematron", ValidatorRegistry.entryFor
            { validator_name := "Schematron", validator_type := "schematron",
              success := true, issues := [] } "R1")]
      = some { found := false, severity := none, message := none } := by
  have h := comparison_matrix_correct
    [{ validator_name := "XSD Schema", validator_type := "xsd", success := false,
       issues := [{ severity := Severity.error, rule_id := "R1", message := "bad" }] },
     { validator_name := "Schematron", validator_type := "schematron",
       success := true, issues := [] }] (by decide)
  have h1 := h.2.2.1 "R1"
    [("XSD Schema", ValidatorRegistry.entryFor
        { validator_name := "XSD Schema", validator_type := "xsd", success := false,
          issues := [{ severity := Severity.error, rule_id := "R1", message := "bad" }] }
        "R1"),
     ("Schematron", ValidatorRegistry.entryFor
        { validator_name := "Schematron", validator_type := "schematron",
          success := true, issues := [] } "R1")]
    (by decide)
  have hx := h1 (⟨"XSD Schema", "xsd", false,
    [⟨Severity.error, "R1", "bad", none, none⟩]⟩ : ValidationResult) (by decide)
  have hy := h1 (⟨"Schematron", "schematron", true, []⟩ : ValidationResult) (by decide)
  exact ⟨hx.trans (by decide), hy.trans (by decide)⟩

/-- A case-insensitive pattern that consumes a prefix exactly also
consumes it from any extension, leaving the extension. -/
theorem matchCI_exact_append (pat : List Char) :
    ∀ pre rest : List Char, TransformerService.matchCI pat pre = some [] →
      TransformerService.matchCI pat (pre ++ rest) = some rest := by
  induction pat with
  | nil =>
    intro pre rest h
    simp only [TransformerService.matchCI, Option.some.injEq] at h
    subst h
    rfl
  | cons p ps ih =>
    intro pre rest h
    cases pre with
    | nil => exact absurd h (by simp [TransformerService.matchCI])
    | cons c pre2 =>
      simp only [TransformerService.matchCI] at h ⊢
      by_cases hc : c.toLower = p
      · rw [if_pos hc] at h ⊢
        exact ih pre2 rest h
      · rw [if_neg hc] at h
        exact absurd h (by simp)

/-- Leading whitespace is consumed by skipWs. -/
theorem skipWs_ws_append (W : List Char) (l : List Char)
    (h : ∀ c ∈ W, TransformerService.isWsChar c) :
    TransformerService.skipWs (W ++ l) = TransformerService.skipWs l := by
  induction W with
  | nil => rfl
  | cons c W2 ih =>
    simp only [List.cons_append, TransformerService.skipWs]
    rw [if_pos (h c (List.mem_cons_self _ _))]
    exact ih (fun c2 h2 => h c2 (List.mem_cons_of_mem _ h2))

/-- skipWs stops at a non-whitespace head. -/
theorem skipWs_not_ws (c : Char) (l : List Char)
    (h : TransformerService.isWsChar c = false) :
    TransformerService.skipWs (c :: l) = c :: l := by
  simp [TransformerService.skipWs, h]

/-- The whitespace class, by cases. -/
theorem isWsChar_elim {c : Char} (h : TransformerService.isWsChar c = true) :
    c = ' ' ∨ c = '\t' ∨ c = '\n' ∨ c = '\r' ∨ c = '\x0b' ∨ c = '\x0c' := by
  simp [TransformerService.isWsChar] at h
  tauto

/-- Whitespace never lowercases to the letter v. -/
theorem ws_toLower_ne_v {c : Char} (h : TransformerService.isWsChar c = true) :
    c.toLower ≠ 'v' := by
  rcases isWsChar_elim h with rfl | rfl | rfl | rfl | rfl | rfl <;> decide

/-- Whitespace is never the closing angle bracket. -/
theorem ws_ne_gt {c : Char} (h : TransformerService.isWsChar c = true) : c ≠ '>' := by
  rcases isWsChar_elim h with rfl | rfl | rfl | rfl | rfl | rfl <;> decide

/-- The quote class, by cases. -/
theorem isQuote_elim {c : Char} (h : TransformerService.isQuote c = true) :
    c = '"' ∨ c = '\'' := by
  simpa [TransformerService.isQuote] using h

/-- Quotes are not whitespace. -/
theorem quote_not_ws {c : Char} (h : TransformerService.isQuote c = true) :
    TransformerService.isWsChar c = false := by
  rcases isQuote_elim h with rfl | rfl <;> decide

/-- Quotes are not digits. -/
theorem quote_not_digit {c : Char} (h : TransformerService.isQuote c = true) :
    c.isDigit = false := by
  rcases isQuote_elim h with rfl | rfl <;> decide

/-- Quotes never lowercase to the letter v. -/
theorem quote_toLower_ne_v {c : Char} (h : TransformerService.isQuote c = true) :
    c.toLower ≠ 'v' := by
  rcases isQuote_elim h with rfl | rfl <;> decide

/-- Quotes are never the closing angle bracket. -/
theorem quote_ne_gt {c : Char} (h : TransformerService.isQuote c = true) : c ≠ '>' := by
  rcases isQuote_elim h with rfl | rfl <;> decide

/-- The version-attribute tail pattern matches at a well-formed
version equals-sign 2.0 occurrence, capturing 2.0, for any surrounding
whitespace runs and any quote characters. -/
theorem matchVersionAttr_target (W1 W2 : List Char) (q1 q2 : Char) (rest : List Char)
    (hW1 : ∀ c ∈ W1, TransformerService.isWsChar c)
    (hW2 : ∀ c ∈ W2, TransformerService.isWsChar c)
    (hq1 : TransformerService.isQuote q1 = true)
    (hq2 : TransformerService.isQuote q2 = true) :
    TransformerService.matchVersionAttr
        ("version".toList ++ (W1 ++ '=' :: (W2 ++ q1 :: '2' :: '.' :: '0' :: q2 :: rest)))
      = some ['2', '.', '0'] := by
  have h1 := matchCI_exact_append "version".toList "version".toList
    (W1 ++ '=' :: (W2 ++ q1 :: '2' :: '.' :: '0' :: q2 :: rest)) (by decide)
  have hs1 : TransformerService.skipWs
      (W1 ++ '=' :: (W2 ++ q1 :: '2' :: '.' :: '0' :: q2 :: rest))
      = '=' :: (W2 ++ q1 :: '2' :: '.' :: '0' :: q2 :: rest) := by
    rw [skipWs_ws_append W1 _ hW1, skipWs_not_ws '=' _ (by decide)]
  have hs2 : TransformerService.skipWs (W2 ++ q1 :: '2' :: '.' :: '0' :: q2 :: rest)
      = q1 :: '2' :: '.' :: '0' :: q2 :: rest := by
    rw [skipWs_ws_append W2 _ hW2, skipWs_not_ws q1 _ (quote_not_ws hq1)]
  have hstep1 : TransformerService.afterVersion
      (W1 ++ '=' :: (W2 ++ q1 :: '2' :: '.' :: '0' :: q2 :: rest))
      = TransformerService.afterEq (W2 ++ q1 :: '2' :: '.' :: '0' :: q2 :: rest) := by
    unfold TransformerService.afterVersion
    rw [hs1]
    simp
  have hstep2 : TransformerService.afterEq (W2 ++ q1 :: '2' :: '.' :: '0' :: q2 :: rest)
      = TransformerService.afterQuote ('2' :: '.' :: '0' :: q2 :: rest) := by
    unfold TransformerService.afterEq
    rw [hs2]
    simp [hq1]
  have hstep3 : TransformerService.afterQuote ('2' :: '.' :: '0' :: q2 :: rest)
      = TransformerService.afterDot ['2'] ('0' :: q2 :: rest) := by
    unfold TransformerService.afterQuote
    rw [List.takeWhile_cons_of_pos (by decide), List.takeWhile_cons_of_neg (by decide),
      List.dropWhile_cons_of_pos (by decide), List.dropWhile_cons_of_neg (by decide)]
    simp
  have hstep4 : TransformerService.afterDot ['2'] ('0' :: q2 :: rest)
      = some ['2', '.', '0'] := by
    unfold TransformerService.afterDot
    rw [List.takeWhile_cons_of_pos (by decide),
      List.takeWhile_cons_of_neg (by simp [quote_not_digit hq2]),
      List.dropWhile_cons_of_pos (by decide),
      List.dropWhile_cons_of_neg (by simp [quote_not_digit hq2])]
    simp [hq2]
  unfold TransformerService.matchVersionAttr
  rw [h1]
  show TransformerService.afterVersion
      (W1 ++ '=' :: (W2 ++ q1 :: '2' :: '.' :: '0' :: q2 :: rest))
    = some ['2', '.', '0']
  rw [hstep1, hstep2, hstep3, hstep4]

/-- The version-attribute pattern fails wherever the first character
does not lowercase to v (or the input is empty). -/
theorem matchVersionAttr_none_head (cs : List Char)
    (h : ∀ c r, cs = c :: r → c.toLower ≠ 'v') :
    TransformerService.matchVersionAttr cs = none := by
  cases cs with
  | nil => rfl
  | cons c r =>
    unfold TransformerService.matchVersionAttr
    have : TransformerService.matchCI "version".toList (c :: r) = none := by
      simp only [TransformerService.matchCI, String.toList]
      rw [if_neg (h c r rfl)]
    rw [this]

/-- The greedy gap fails on a whole segment when the version pattern
fails at every suffix inside it and past it. -/
theorem gapScan_none_append (l : List Char) :
    ∀ X : List Char, (∀ c ∈ X, c ≠ '>') →
      (∀ s, s <:+ X → TransformerService.matchVersionAttr (s ++ l) = none) →
      TransformerService.gapScan l = none →
      TransformerService.gapScan (X ++ l) = none := by
  intro X
  induction X with
  | nil => intro _ _ hl; exact hl
  | cons c X2 ih =>
    intro hgt hmid hl
    simp only [List.cons_append, TransformerService.gapScan, List.append_eq]
    rw [if_neg (hgt c (List.mem_cons_self _ _))]
    rw [ih (fun c2 h2 => hgt c2 (List.mem_cons_of_mem _ h2))
      (fun s hs => hmid s (hs.trans (List.suffix_cons c X2))) hl]
    simp only [hmid X2 (List.suffix_cons c X2)]

/-- The greedy gap finds the version pattern when it holds right after
a non-empty stretch of characters other than the closing bracket and at
no later point. -/
theorem gapScan_found (l v : List Char) (hfound : TransformerService.matchVersionAttr l = some v)
    (hnone : TransformerService.gapScan l = none) :
    ∀ A : List Char, A ≠ [] → (∀ c ∈ A, c ≠ '>') →
      TransformerService.gapScan (A ++ l) = some v := by
  intro A
  induction A with
  | nil => intro h _; exact absurd rfl h
  | cons a A2 ih =>
    intro _ hgt
    simp only [List.cons_append, TransformerService.gapScan, List.append_eq]
    rw [if_neg (hgt a (List.mem_cons_self _ _))]
    cases A2 with
    | nil =>
      simp only [List.nil_append]
      rw [hnone, hfound]
    | cons b B =>
      rw [ih (List.cons_ne_nil b B) (fun c hc => hgt c (List.mem_cons_of_mem _ hc))]

/-- One step of the greedy gap against an opaque tail: a non-bracket
head whose tail admits neither a later gap match nor an immediate
version match yields no match. -/
theorem gapScan_cons_none (c : Char) (l : List Char) (hc : c ≠ '>')
    (h1 : TransformerService.gapScan l = none)
    (h2 : TransformerService.matchVersionAttr l = none) :
    TransformerService.gapScan (c :: l) = none := by
  simp only [TransformerService.gapScan]
  rw [if_neg hc]
  simp [h1, h2]

/-- One step of the leftmost search: a position where the whole tag
pattern matches ends the search with its capture. -/
theorem regexSearch_cons_found (c : Char) (l v : List Char)
    (h : TransformerService.matchStylesheetTag (c :: l) = some v) :
    TransformerService.regexSearch (c :: l) = some v := by
  simp only [TransformerService.regexSearch]
  simp [h]

/-- C3 (amended): when an xsl:stylesheet opening tag declares
version equals 2.0 at the start of the content and no later candidate
can match inside the tag (the later attribute text B contains no
closing bracket and no letter v), detection yields XSLT 2.0 whatever
whitespace surrounds the equals sign, whatever other attribute text
comes before or after the version attribute, and whichever of the two
quote characters is used on either side.  Detection is a function of
the content alone (the embedding is stateless), so the result never
depends on prior calls. -/
theorem detect_version_two_regardless
    (A W1 W2 B T : List Char) (q1 q2 : Char)
    (hA : A ≠ []) (hAgt : ∀ c ∈ A, c ≠ '>')
    (hW1 : ∀ c ∈ W1, TransformerService.isWsChar c)
    (hW2 : ∀ c ∈ W2, TransformerService.isWsChar c)
    (hq1 : TransformerService.isQuote q1 = true)
    (hq2 : TransformerService.isQuote q2 = true)
    (hB : ∀ c ∈ B, c ≠ '>' ∧ c.toLower ≠ 'v') :
    TransformerService.detect_xslt_version
        ("<xsl:stylesheet".toList ++ (A ++ ("version".toList ++ (W1 ++ '=' ::
          (W2 ++ q1 :: '2' :: '.' :: '0' :: q2 :: (B ++ '>' :: T))))))
      = XSLTVersion.V2_0 := by
  have hfound : TransformerService.matchVersionAttr
      ("version".toList ++ (W1 ++ '=' ::
        (W2 ++ q1 :: '2' :: '.' :: '0' :: q2 :: (B ++ '>' :: T))))
      = some ['2', '.', '0'] :=
    matchVersionAttr_target W1 W2 q1 q2 (B ++ '>' :: T) hW1 hW2 hq1 hq2
  have hXprops : ∀ c ∈ ("ersion".toList ++ (W1 ++ '=' ::
      (W2 ++ q1 :: '2' :: '.' :: '0' :: q2 :: B))), c ≠ '>' ∧ c.toLower ≠ 'v' := by
    intro c hc
    rcases List.mem_append.mp hc with h | h
    · rcases (by simpa using h :
        c = 'e' ∨ c = 'r' ∨ c = 's' ∨ c = 'i' ∨ c = 'o' ∨ c = 'n')
        with rfl | rfl | rfl | rfl | rfl | rfl <;> exact ⟨by decide, by decide⟩
    · rcases List.mem_append.mp h with h2 | h2
      · exact ⟨ws_ne_gt (hW1 c h2), ws_toLower_ne_v (hW1 c h2)⟩
      · rcases List.mem_cons.mp h2 with rfl | h3
        · exact ⟨by decide, by decide⟩
        · rcases List.mem_append.mp h3 with h4 | h4
          · exact ⟨ws_ne_gt (hW2 c h4), ws_toLower_ne_v (hW2 c h4)⟩
          · rcases List.mem_cons.mp h4 with rfl | h5
            · exact ⟨quote_ne_gt hq1, quote_toLower_ne_v hq1⟩
            · rcases List.mem_cons.mp h5 with rfl | h6
              · exact ⟨by decide, by decide⟩
              · rcases List.mem_cons.mp h6 with rfl | h7
                · exact ⟨by decide, by decide⟩
                · rcases List.mem_cons.mp h7 with rfl | h8
                  · exact ⟨by decide, by decide⟩
                  · rcases List.mem_cons.mp h8 with rfl | h9
                    · exact ⟨quote_ne_gt hq2, quote_toLower_ne_v hq2⟩
                    · exact hB c h9
  have hXnone : TransformerService.gapScan
      (("ersion".toList ++ (W1 ++ '=' ::
        (W2 ++ q1 :: '2' :: '.' :: '0' :: q2 :: B))) ++ '>' :: T) = none := by
    apply gapScan_none_append
    · intro c hc; exact (hXprops c hc).1
    · intro s hs
      apply matchVersionAttr_none_head
      intro c r hcr
      cases s with
      | nil =>
        simp only [List.nil_append] at hcr
        cases hcr
        decide
      | cons c0 s2 =>
        simp only [List.cons_append, List.cons.injEq] at hcr
        rw [← hcr.1]
        exact (hXprops c0 (hs.subset (List.mem_cons_self _ _))).2
    · simp [TransformerService.gapScan]
  have hassoc : "ersion".toList ++ (W1 ++ '=' ::
      (W2 ++ q1 :: '2' :: '.' :: '0' :: q2 :: (B ++ '>' :: T)))
      = ("ersion".toList ++ (W1 ++ '=' ::
        (W2 ++ q1 :: '2' :: '.' :: '0' :: q2 :: B))) ++ '>' :: T := by
    simp [List.append_assoc]
  have hnone : TransformerService.gapScan
      ("version".toList ++ (W1 ++ '=' ::
        (W2 ++ q1 :: '2' :: '.' :: '0' :: q2 :: (B ++ '>' :: T)))) = none := by
    rw [(by decide : "version".toList = 'v' :: "ersion".toList), List.cons_append]
    apply gapScan_cons_none 'v' _ (by decide)
    · rw [hassoc]
      exact hXnone
    · apply matchVersionAttr_none_head
      intro c r hcr
      rw [(by decide : "ersion".toList = 'e' :: "rsion".toList), List.cons_append,
        List.cons.injEq] at hcr
      cases hcr.1
      decide
  have hgap : TransformerService.gapScan
      (A ++ ("version".toList ++ (W1 ++ '=' ::
        (W2 ++ q1 :: '2' :: '.' :: '0' :: q2 :: (B ++ '>' :: T))))) = some ['2', '.', '0'] :=
    gapScan_found _ _ hfound hnone A hA hAgt
  have hci1 : TransformerService.matchCI "<xsl:".toList
      ("<xsl:stylesheet".toList ++ (A ++ ("version".toList ++ (W1 ++ '=' ::
        (W2 ++ q1 :: '2' :: '.' :: '0' :: q2 :: (B ++ '>' :: T))))))
      = some ("stylesheet".toList ++ (A ++ ("version".toList ++ (W1 ++ '=' ::
        (W2 ++ q1 :: '2' :: '.' :: '0' :: q2 :: (B ++ '>' :: T)))))) := by
    rw [(by decide : "<xsl:stylesheet".toList = "<xsl:".toList ++ "stylesheet".toList),
      List.append_assoc]
    exact matchCI_exact_append _ _ _ (by decide)
  have hci2 : TransformerService.matchCI "stylesheet".toList
      ("stylesheet".toList ++ (A ++ ("version".toList ++ (W1 ++ '=' ::
        (W2 ++ q1 :: '2' :: '.' :: '0' :: q2 :: (B ++ '>' :: T))))))
      = some (A ++ ("version".toList ++ (W1 ++ '=' ::
        (W2 ++ q1 :: '2' :: '.' :: '0' :: q2 :: (B ++ '>' :: T))))) :=
    matchCI_exact_append _ _ _ (by decide)
  have hST : TransformerService.matchStylesheetTag
      ("<xsl:stylesheet".toList ++ (A ++ ("version".toList ++ (W1 ++ '=' ::
        (W2 ++ q1 :: '2' :: '.' :: '0' :: q2 :: (B ++ '>' :: T))))))
      = some ['2', '.', '0'] := by
    unfold TransformerService.matchStylesheetTag
    simp only [hci1, hci2, hgap]
  have hre : TransformerService.regexSearch
      ("<xsl:stylesheet".toList ++ (A ++ ("version".toList ++ (W1 ++ '=' ::
        (W2 ++ q1 :: '2' :: '.' :: '0' :: q2 :: (B ++ '>' :: T))))))
      = some ['2', '.', '0'] := by
    rw [(by decide : "<xsl:stylesheet".toList = '<' :: "xsl:stylesheet".toList),
      List.cons_append] at hST ⊢
    exact regexSearch_cons_found _ _ _ hST
  unfold TransformerService.detect_xslt_version
  rw [hre]
  decide

/-- The version mapping in the words of the specification, for
comparison with the code's detector: the root-element declaration's
version attribute with lexical value 3.x maps to Level-3, 2.x to
Level-2, and anything else, including an absent attribute, to
Level-1. -/
def specVersionMapping (rootVersionAttr : Option String) : XSLTVersion :=
  match rootVersionAttr with
  | some s =>
    if s.startsWith "3." then XSLTVersion.V3_0
    else if s.startsWith "2." then XSLTVersion.V2_0
    else XSLTVersion.V1_0
  | none => XSLTVersion.V1_0

/-- Counterexample for C3: the detector does not inspect the
root-element declaration; it scans the raw text for the first
tag-shaped occurrence of the pattern, comments included.  In this
stylesheet the root element xsl:stylesheet declares no version
attribute at all, so the claim's mapping prescribes Level-1, yet the
detector matches the pattern inside the leading comment and returns
Level-2. -/
theorem detect_version_comment_cex :
    TransformerService.detect_xslt_version
        ("<!-- <xsl:transform version=\"2.0\"> --><xsl:stylesheet xmlns:xsl=\"http://www.w3.org/1999/XSL/Transform\"></xsl:stylesheet>").toList
      = XSLTVersion.V2_0
    ∧ specVersionMapping none = XSLTVersion.V1_0
    ∧ XSLTVersion.V2_0 ≠ XSLTVersion.V1_0 :=
  ⟨by decide, rfl, by decide⟩

/-- Witness for the amended C3: a root declaration carrying the xmlns
attribute first and version equals 2.0 second, with whitespace around
the equals sign, detects as XSLT 2.0. -/
theorem detect_version_two_regardless_witness :
    TransformerService.detect_xslt_version
        ("<xsl:stylesheet".toList ++
          ((" xmlns:xsl=\"http://www.w3.org/1999/XSL/Transform\" ").toList ++
            ("version".toList ++ ([] ++ '=' ::
              ([' '] ++ '"' :: '2' :: '.' :: '0' :: '"' ::
                ([] ++ '>' :: "</xsl:stylesheet>".toList))))))
      = XSLTVersion.V2_0 :=
  detect_version_two_regardless
    (" xmlns:xsl=\"http://www.w3.org/1999/XSL/Transform\" ").toList
    [] [' '] [] "</xsl:stylesheet>".toList '"' '"'
    (by decide) (by decide) (by decide) (by decide) (by decide) (by decide) (by decide)
